import Mathlib

/-!
Verification of the gmsh `.msh` importer (`import_msh.py`).

The development shallowly embeds the `load` function of the importer over a
line-oriented model of the input file: the file is a `List String` whose
entries are the raw lines including their trailing newline characters, and
`readline` returns `""` once the list is exhausted, exactly as Python's
`file.readline` does at end of stream.  Python `dict`s are embedded as
insertion-ordered association lists with overwrite-on-rebind, fallible
operations return `Except PyErr`, and the diagnostics printed by the code are
collected in a log.  Floating-point literals in the file only ever flow into
the version comparison `version_number < 4.0` and the vertex coordinates, so
`float` parsing is embedded as exact decimal parsing into `PyFloat`, an
unnormalised decimal fraction `mant / 10 ^ dexp` (scientific notation and the
other exotic accepted spellings of Python's `float` are not modelled; no
claim depends on them).
-/

set_option maxRecDepth 4000

deriving instance DecidableEq for Except

namespace Msh

/-- The Python exceptions that `load` can raise. -/
inductive PyErr where
  | indexError
  | valueError
  | keyError
  | assertionError
deriving DecidableEq, Repr

/-- `file.readline()`: the next raw line, or `""` at end of stream. -/
def readline : List String → String × List String
  | [] => ("", [])
  | l :: ls => (l, ls)

/-- Drop the characters of `cs` from the front of a character list. -/
def dropChars (cs : List Char) (l : List Char) : List Char :=
  l.dropWhile (fun c => cs.contains c)

/-- Python `s.strip(chars)`: remove the given characters from both ends. -/
def stripChars (s : String) (cs : List Char) : String :=
  String.mk ((dropChars cs ((dropChars cs s.toList).reverse)).reverse)

/-- Python `s.rstrip()`: remove trailing whitespace. -/
def pyRstrip (s : String) : String :=
  String.mk ((s.toList.reverse.dropWhile Char.isWhitespace).reverse)

/-- Python `s.strip()`: remove whitespace from both ends. -/
def pyStripWS (s : String) : String :=
  String.mk (((s.toList.dropWhile Char.isWhitespace).reverse.dropWhile
    Char.isWhitespace).reverse)

/-- Python `s.strip("\r\n")`. -/
def stripCRLF (s : String) : String :=
  stripChars s ['\r', '\n']

/-- Python `s.isspace()`: nonempty and all whitespace. -/
def pyIsSpace (s : String) : Bool :=
  !s.toList.isEmpty && s.toList.all Char.isWhitespace

/-- Whitespace-run splitter worker (accumulates the current token reversed). -/
def splitWSAux : List Char → List Char → List String
  | [], cur => if cur.isEmpty then [] else [String.mk cur.reverse]
  | c :: cs, cur =>
    if c.isWhitespace then
      if cur.isEmpty then splitWSAux cs []
      else String.mk cur.reverse :: splitWSAux cs []
    else splitWSAux cs (c :: cur)

/-- Python `s.split()`: split on runs of whitespace, discarding empties. -/
def pySplitWS (s : String) : List String :=
  splitWSAux s.toList []

/-- Single-space splitter worker. -/
def splitSpaceAux : List Char → List Char → List String
  | [], cur => [String.mk cur.reverse]
  | c :: cs, cur =>
    if c == ' ' then String.mk cur.reverse :: splitSpaceAux cs []
    else splitSpaceAux cs (c :: cur)

/-- Python `s.split(" ")`: split at every single space, keeping empties
(`"".split(" ")` is `[""]`). -/
def pySplitSpace (s : String) : List String :=
  splitSpaceAux s.toList []

/-- `needle.toList` begins `hay`. -/
def startsWithL : List Char → List Char → Bool
  | [], _ => true
  | _ :: _, [] => false
  | a :: as, b :: bs => a == b && startsWithL as bs

/-- `needle` occurs somewhere in `hay` (Python's `in` on strings). -/
def containsL (needle : List Char) : List Char → Bool
  | [] => startsWithL needle []
  | b :: bs => startsWithL needle (b :: bs) || containsL needle bs

/-- Python `needle in hay` for strings. -/
def strContains (hay needle : String) : Bool :=
  containsL needle.toList hay.toList

/-- Numeric value of a digit string (caller checks the digits). -/
def digitsNat (cs : List Char) : Nat :=
  cs.foldl (fun a c => a * 10 + (c.toNat - 48)) 0

/-- Nonempty all-digit check plus value. -/
def digitsVal (cs : List Char) : Option Nat :=
  if !cs.isEmpty && cs.all Char.isDigit then some (digitsNat cs) else none

/-- Python `int(s)` on a token: optional sign and decimal digits
(surrounding whitespace tolerated, as `int` does). -/
def pyInt? (s : String) : Option Int :=
  match (pyStripWS s).toList with
  | '-' :: ds => (digitsVal ds).map (fun n => -(n : Int))
  | '+' :: ds => (digitsVal ds).map (fun n => (n : Int))
  | ds => (digitsVal ds).map (fun n => (n : Int))

/-- An exact decimal number `mant / 10 ^ dexp`, the embedding of the
`float` values the importer reads (they are only parsed, compared against
`4.0` and passed through to the vertex list; no arithmetic is done on them,
so the representation is kept unnormalised exactly as parsed). -/
structure PyFloat where
  mant : Int
  dexp : Nat
deriving DecidableEq, Repr

/-- Value order on decimals: `a < b` by cross multiplication. -/
def pfLt (a b : PyFloat) : Bool :=
  decide (a.mant * (10 : Int) ^ b.dexp < b.mant * (10 : Int) ^ a.dexp)

/-- Decimal core of Python `float(s)`: `digits[.digits]`, `.digits`,
`digits.`.  Exponents are not modelled. -/
def pyFloatCore (cs : List Char) : Option PyFloat :=
  let ip := cs.takeWhile (fun c => c != '.')
  let rest := cs.dropWhile (fun c => c != '.')
  match rest with
  | [] =>
    if !ip.isEmpty && ip.all Char.isDigit then some ⟨(digitsNat ip : Int), 0⟩ else none
  | _ :: fp =>
    if (!ip.isEmpty || !fp.isEmpty) && ip.all Char.isDigit && fp.all Char.isDigit then
      some ⟨(digitsNat ip : Int) * (10 : Int) ^ fp.length + (digitsNat fp : Int), fp.length⟩
    else none

/-- Python `float(s)` restricted to plain decimals. -/
def pyFloat? (s : String) : Option PyFloat :=
  match (pyStripWS s).toList with
  | '-' :: ds => (pyFloatCore ds).map (fun q => ⟨-q.mant, q.dexp⟩)
  | '+' :: ds => pyFloatCore ds
  | ds => pyFloatCore ds

/-- `shlex.split` worker: characters to go, open quote, current token,
finished tokens.  Backslash escapes are not modelled (no input uses them). -/
def shlexGo : List Char → Option Char → Option (List Char) → List String → List String
  | [], _, cur, acc =>
    acc ++ (match cur with | some t => [String.mk t] | none => [])
  | c :: cs, some q, cur, acc =>
    if c == q then shlexGo cs none (some (cur.getD [])) acc
    else shlexGo cs (some q) (some (cur.getD [] ++ [c])) acc
  | c :: cs, none, cur, acc =>
    if c.isWhitespace then
      match cur with
      | some t => shlexGo cs none none (acc ++ [String.mk t])
      | none => shlexGo cs none none acc
    else if c == '"' || c == Char.ofNat 39 then
      shlexGo cs (some c) (some (cur.getD [])) acc
    else shlexGo cs none (some (cur.getD [] ++ [c])) acc

/-- Python `shlex.split(s)` (quote-aware word splitting). -/
def shlexSplit (s : String) : List String :=
  shlexGo s.toList none none []

/-- Python `dict` lookup `d.get(k)` over an insertion-ordered alist. -/
def adictGet {κ α : Type} [BEq κ] (d : List (κ × α)) (k : κ) : Option α :=
  (d.find? (fun p => p.1 == k)).map (fun p => p.2)

/-- Python `dict` assignment `d[k] = v`: overwrite in place, else append. -/
def adictSet {κ α : Type} [BEq κ] (d : List (κ × α)) (k : κ) (v : α) : List (κ × α) :=
  if (d.find? (fun p => p.1 == k)).isSome then
    d.map (fun p => if p.1 == k then (k, v) else p)
  else d ++ [(k, v)]

/-- A Python dict with `int` keys. -/
abbrev Dict (α : Type) := List (Int × α)

/-- A parsed node coordinate. -/
abbrev Coord := PyFloat × PyFloat × PyFloat

/-- `s[i]` on a list (IndexError if out of range). -/
def pyIxE {α : Type} (l : List α) (i : Nat) : Except PyErr α :=
  match l.get? i with
  | some a => Except.ok a
  | none => Except.error PyErr.indexError

/-- `s[-1]` on a list (IndexError if empty). -/
def pyLastE {α : Type} (l : List α) : Except PyErr α :=
  match l.getLast? with
  | some a => Except.ok a
  | none => Except.error PyErr.indexError

/-- `int(s)` (ValueError on failure). -/
def pyIntE (s : String) : Except PyErr Int :=
  match pyInt? s with
  | some n => Except.ok n
  | none => Except.error PyErr.valueError

/-- `float(s)` (ValueError on failure). -/
def pyFloatE (s : String) : Except PyErr PyFloat :=
  match pyFloat? s with
  | some q => Except.ok q
  | none => Except.error PyErr.valueError

/-- `int(s[i])`: IndexError then ValueError, in Python's order. -/
def pyTokInt (s : List String) (i : Nat) : Except PyErr Int :=
  match pyIxE s i with
  | Except.error e => Except.error e
  | Except.ok t => pyIntE t

/-- `float(s[i])`. -/
def pyTokFloat (s : List String) (i : Nat) : Except PyErr PyFloat :=
  match pyIxE s i with
  | Except.error e => Except.error e
  | Except.ok t => pyFloatE t

/-- The `ELEMENT_TYPES` table: element type code to node count. -/
def ELEMENT_TYPES : Dict Nat :=
  [(1, 2), (2, 3), (3, 4), (4, 4), (5, 8), (6, 6), (7, 5), (15, 0)]

/-- `ELEMENT_TYPES[t]` as a lookup. -/
def elementTypes (t : Int) : Option Nat :=
  adictGet ELEMENT_TYPES t

/-- The diagnostic printed for an element type absent from the table. -/
def unimplMsg (t : Int) : String :=
  "Element " ++ toString t ++ " not implemented"

/-- One parsed element record (the dict built at lines 268 and 292 of the
source; the version < 4 grammar fills the two entity tags, the version ≥ 4
grammar stores no such keys, which the embedding renders as `none`). -/
structure ElemRec where
  typ : Int
  physical_entity : Option Int
  geo_entity : Option Int
  nodes : List Int
deriving DecidableEq, Repr

/-- The `physical_names` table: dimension (1, 2, 3) to number to name. -/
structure PhysNames where
  d1 : Dict String
  d2 : Dict String
  d3 : Dict String
deriving DecidableEq, Repr

/-- `physical_names[dim][num] = name` (KeyError on any other dimension). -/
def physSet (pn : PhysNames) (dim num : Int) (name : String) : Except PyErr PhysNames :=
  if dim == 1 then Except.ok { pn with d1 := adictSet pn.d1 num name }
  else if dim == 2 then Except.ok { pn with d2 := adictSet pn.d2 num name }
  else if dim == 3 then Except.ok { pn with d3 := adictSet pn.d3 num name }
  else Except.error PyErr.keyError

/-- `skipUnknownCmd`'s scan loop: `while("$End"+c not in tmp and len(tmp)>0):
tmp = f.readline().strip("\r\n")`.  On an exhausted stream `readline`
returns `""`, which ends the loop with the stream unchanged, so the `[]`
case returns `[]` directly. -/
def skipUnknownLoop (endTok : String) : List String → String → List String
  | [], _ => []
  | l :: ls, tmp =>
    if strContains tmp endTok || tmp == "" then l :: ls
    else skipUnknownLoop endTok ls (stripCRLF l)

/-- `skipUnknownCmd(f, c)`: print the diagnostic, then scan forward.  Returns
the remaining stream and the emitted diagnostic. -/
def skipUnknownCmd (input : List String) (c : String) : List String × List String :=
  let c' := stripChars c ['$']
  (skipUnknownLoop ("$End" ++ c') input c',
    ["Skiping unknown command :\x27" ++ c ++ "\x27 "])

/-- Read `k` ints from token list `s` starting at index `j`
(the `for k in range(...): ...int(s[j]); j += 1` pattern). -/
def readIntsFrom (s : List String) : Nat → Nat → Except PyErr (List Int × Nat)
  | j, 0 => Except.ok ([], j)
  | j, k + 1 =>
    match pyTokInt s j with
    | Except.error e => Except.error e
    | Except.ok v =>
      match readIntsFrom s (j + 1) k with
      | Except.error e => Except.error e
      | Except.ok (vs, j') => Except.ok (v :: vs, j')

/-- One record line of the `$PhysicalNames` body, then the rest of the count
loop (lines 190–197; blank lines consume an iteration without a record). -/
def parsePhysLoop : Nat → List String → PhysNames → Except PyErr (PhysNames × List String)
  | 0, input, pn => Except.ok (pn, input)
  | n + 1, input0, pn =>
    let (line, input) := readline input0
    if pyIsSpace line then parsePhysLoop n input pn
    else
      let s := shlexSplit line
      match pyTokInt s 0 with
      | Except.error e => Except.error e
      | Except.ok dim =>
        match pyTokInt s 1 with
        | Except.error e => Except.error e
        | Except.ok num =>
          match pyIxE s 2 with
          | Except.error e => Except.error e
          | Except.ok name =>
            match physSet pn dim num name with
            | Except.error e => Except.error e
            | Except.ok pn' => parsePhysLoop n input pn'

/-- The version < 4 node loop (lines 211–217). -/
def parseNodesLegacy : Nat → List String → Dict Coord → Except PyErr (Dict Coord × List String)
  | 0, input, nd => Except.ok (nd, input)
  | n + 1, input0, nd =>
    let (line, input) := readline input0
    if pyIsSpace line then parseNodesLegacy n input nd
    else
      let s := pySplitWS line
      match pyTokInt s 0 with
      | Except.error e => Except.error e
      | Except.ok num =>
        match pyTokFloat s 1 with
        | Except.error e => Except.error e
        | Except.ok x =>
          match pyTokFloat s 2 with
          | Except.error e => Except.error e
          | Except.ok y =>
            match pyTokFloat s 3 with
            | Except.error e => Except.error e
            | Except.ok z => parseNodesLegacy n input (adictSet nd num (x, y, z))

/-- The version ≥ 4 per-entity node loop (lines 227–231, no blank skipping). -/
def parseNodesV4Inner : Nat → List String → Dict Coord → Except PyErr (Dict Coord × List String)
  | 0, input, nd => Except.ok (nd, input)
  | n + 1, input0, nd =>
    let (line, input) := readline input0
    let s := pySplitWS line
    match pyTokInt s 0 with
    | Except.error e => Except.error e
    | Except.ok num =>
      match pyTokFloat s 1 with
      | Except.error e => Except.error e
      | Except.ok x =>
        match pyTokFloat s 2 with
        | Except.error e => Except.error e
        | Except.ok y =>
          match pyTokFloat s 3 with
          | Except.error e => Except.error e
          | Except.ok z => parseNodesV4Inner n input (adictSet nd num (x, y, z))

/-- The version ≥ 4 entity-block node loop (lines 224–231): the block header's
last space-separated token is the node count of the block. -/
def parseNodesV4Blocks : Nat → List String → Dict Coord → Except PyErr (Dict Coord × List String)
  | 0, input, nd => Except.ok (nd, input)
  | b + 1, input0, nd =>
    let (line, input) := readline input0
    match pyLastE (pySplitSpace line) with
    | Except.error e => Except.error e
    | Except.ok t =>
      match pyIntE t with
      | Except.error e => Except.error e
      | Except.ok cnt =>
        match parseNodesV4Inner cnt.toNat input nd with
        | Except.error e => Except.error e
        | Except.ok (nd', input') => parseNodesV4Blocks b input' nd'

/-- Token processing for one version < 4 element line (lines 250–268):
`id type numTags tag_1..tag_numTags node_1..node_k`; an unknown type leaves
the node list empty and prints a diagnostic (the caught `KeyError`). -/
def procLegacyElemTokens (s : List String) : Except PyErr ((Int × ElemRec) × List String) :=
  match pyTokInt s 0 with
  | Except.error e => Except.error e
  | Except.ok num =>
    match pyTokInt s 1 with
    | Except.error e => Except.error e
    | Except.ok elem_type =>
      match pyTokInt s 2 with
      | Except.error e => Except.error e
      | Except.ok num_tags =>
        match readIntsFrom s 3 num_tags.toNat with
        | Except.error e => Except.error e
        | Except.ok (tags, j) =>
          match pyIxE tags 0 with
          | Except.error e => Except.error e
          | Except.ok pe =>
            match pyIxE tags 1 with
            | Except.error e => Except.error e
            | Except.ok ge =>
              match elementTypes elem_type with
              | none =>
                Except.ok ((num, ⟨elem_type, some pe, some ge, []⟩), [unimplMsg elem_type])
              | some k =>
                match readIntsFrom s j k with
                | Except.error e => Except.error e
                | Except.ok (ns, _) =>
                  Except.ok ((num, ⟨elem_type, some pe, some ge, ns⟩), [])

/-- The version < 4 element loop (lines 245–268). -/
def parseElemsLegacyLoop :
    Nat → List String → Dict ElemRec → List String →
      Except PyErr (Dict ElemRec × List String × List String)
  | 0, input, el, lg => Except.ok (el, input, lg)
  | n + 1, input0, el, lg =>
    let (line, input) := readline input0
    if pyIsSpace line then parseElemsLegacyLoop n input el lg
    else
      match procLegacyElemTokens (pySplitWS line) with
      | Except.error e => Except.error e
      | Except.ok ((num, r), lg2) =>
        parseElemsLegacyLoop n input (adictSet el num r) (lg ++ lg2)

/-- Token processing for one version ≥ 4 element line (lines 282–292):
`id node_1..node_k`; the type comes from the block header and the record
stores no entity tags. -/
def procV4ElemTokens (elem_type : Int) (s : List String) :
    Except PyErr ((Int × ElemRec) × List String) :=
  match pyTokInt s 0 with
  | Except.error e => Except.error e
  | Except.ok num =>
    match elementTypes elem_type with
    | none => Except.ok ((num, ⟨elem_type, none, none, []⟩), [unimplMsg elem_type])
    | some k =>
      match readIntsFrom s 1 k with
      | Except.error e => Except.error e
      | Except.ok (ns, _) => Except.ok ((num, ⟨elem_type, none, none, ns⟩), [])

/-- The version ≥ 4 per-entity element loop (lines 278–292). -/
def parseElemsV4Inner (elem_type : Int) :
    Nat → List String → Dict ElemRec → List String →
      Except PyErr (Dict ElemRec × List String × List String)
  | 0, input, el, lg => Except.ok (el, input, lg)
  | n + 1, input0, el, lg =>
    let (line, input) := readline input0
    if pyIsSpace line then parseElemsV4Inner elem_type n input el lg
    else
      match procV4ElemTokens elem_type (pySplitWS line) with
      | Except.error e => Except.error e
      | Except.ok ((num, r), lg2) =>
        parseElemsV4Inner elem_type n input (adictSet el num r) (lg ++ lg2)

/-- The version ≥ 4 entity-block element loop (lines 273–292): the block
header's third token is the type and its fourth the element count. -/
def parseElemsV4Blocks :
    Nat → List String → Dict ElemRec → List String →
      Except PyErr (Dict ElemRec × List String × List String)
  | 0, input, el, lg => Except.ok (el, input, lg)
  | b + 1, input0, el, lg =>
    let (line, input) := readline input0
    let s := pySplitWS line
    match pyTokInt s 2 with
    | Except.error e => Except.error e
    | Except.ok elem_type =>
      match pyTokInt s 3 with
      | Except.error e => Except.error e
      | Except.ok cnt =>
        match parseElemsV4Inner elem_type cnt.toNat input el lg with
        | Except.error e => Except.error e
        | Except.ok (el', input', lg') => parseElemsV4Blocks b input' el' lg'

/-- Lines 182–200: the `$MeshFormat` body, the `$EndMeshFormat` discard, and
the optional `$PhysicalNames` section.  Returns the version, the name table,
the next command line (already stripped of CR/LF) and the remaining stream. -/
def parseHeaderPhys (input0 : List String) :
    Except PyErr (PyFloat × PhysNames × String × List String) :=
  let (l2, input) := readline input0
  let s := pySplitWS l2
  match pyTokFloat s 0 with
  | Except.error e => Except.error e
  | Except.ok version =>
    match pyTokInt s 1 with
    | Except.error e => Except.error e
    | Except.ok _file_type =>
      match pyTokInt s 2 with
      | Except.error e => Except.error e
      | Except.ok _data_size =>
        let (_, input1) := readline input  -- $EndMeshFormat
        let (cl, input2) := readline input1
        let cmd := stripCRLF cl
        if cmd == "$PhysicalNames" then
          let (cntl, input3) := readline input2
          match pyIntE (pyRstrip cntl) with
          | Except.error e => Except.error e
          | Except.ok cnt =>
            match parsePhysLoop cnt.toNat input3 ⟨[], [], []⟩ with
            | Except.error e => Except.error e
            | Except.ok (pn, input4) =>
              let (_, input5) := readline input4  -- $EndPhysicalNames
              let (cl2, input6) := readline input5
              Except.ok (version, pn, stripCRLF cl2, input6)
        else Except.ok (version, ⟨[], [], []⟩, cmd, input2)

/-- Lines 203–235: the pre-`$Nodes` unknown-section skip and the three-way
node branch.  Returns the declared node count, the node table, the remaining
stream and the diagnostics. -/
def parseNodesPhase (version : PyFloat) (cmd0 : String) (input0 : List String) :
    Except PyErr (Int × Dict Coord × List String × List String) :=
  let (cmd, input, lg0) :=
    if strContains cmd0 "Nodes" then (cmd0, input0, ([] : List String))
    else
      let (input1, lg) := skipUnknownCmd input0 cmd0
      let (cl, input2) := readline input1
      (stripCRLF cl, input2, lg)
  if (cmd == "$ParametricNodes" || cmd == "$Nodes") && pfLt version ⟨4, 0⟩ then
    let (nl, inputA) := readline input
    match pyIntE (pyRstrip nl) with
    | Except.error e => Except.error e
    | Except.ok nn =>
      match parseNodesLegacy nn.toNat inputA [] with
      | Except.error e => Except.error e
      | Except.ok (nd, inputB) =>
        let (_, inputC) := readline inputB  -- $EndNodes
        Except.ok (nn, nd, inputC, lg0)
  else if cmd == "$Nodes" then
    let (hl, inputA) := readline input
    let tks := pySplitSpace (pyRstrip hl)
    match pyTokInt tks 1 with
    | Except.error e => Except.error e
    | Except.ok nn =>
      match pyTokInt tks 0 with
      | Except.error e => Except.error e
      | Except.ok nb =>
        match parseNodesV4Blocks nb.toNat inputA [] with
        | Except.error e => Except.error e
        | Except.ok (nd, inputB) =>
          let (_, inputC) := readline inputB  -- $EndNodes
          Except.ok (nn, nd, inputC, lg0)
  else
    let (input', lg') := skipUnknownCmd input cmd
    Except.ok (0, [], input', lg0 ++ lg')

/-- Lines 241–292: the two element grammars, selected by the version. -/
def parseElementsPhase (version : PyFloat) (input0 : List String) :
    Except PyErr (Int × Dict ElemRec × List String × List String) :=
  if pfLt version ⟨4, 0⟩ then
    let (nl, input) := readline input0
    match pyIntE (pyStripWS nl) with
    | Except.error e => Except.error e
    | Except.ok ne =>
      match parseElemsLegacyLoop ne.toNat input [] [] with
      | Except.error e => Except.error e
      | Except.ok (el, input', lg) => Except.ok (ne, el, input', lg)
  else
    let (hl, input) := readline input0
    let tks := pySplitSpace (pyRstrip hl)
    match pyTokInt tks 0 with
    | Except.error e => Except.error e
    | Except.ok nb =>
      match pyTokInt tks 1 with
      | Except.error e => Except.error e
      | Except.ok ne =>
        match parseElemsV4Blocks nb.toNat input [] [] with
        | Except.error e => Except.error e
        | Except.ok (el, input', lg) => Except.ok (ne, el, input', lg)

/-- Everything the scanner hands to the final assembly. -/
structure Parsed where
  pn : PhysNames
  nodes : Dict Coord
  elements : Dict ElemRec
  number_of_nodes : Int
  number_of_elements : Int
  log : List String
deriving DecidableEq, Repr

/-- The scanner after the `$MeshFormat` check (lines 182–292). -/
def loadTables1 (input0 : List String) : Except PyErr Parsed :=
  match parseHeaderPhys input0 with
  | Except.error e => Except.error e
  | Except.ok (version, pn, cmd, input) =>
    match parseNodesPhase version cmd input with
    | Except.error e => Except.error e
    | Except.ok (nn, nodes, input1, lg1) =>
      let (_, input2) := readline input1  -- $Elements
      match parseElementsPhase version input2 with
      | Except.error e => Except.error e
      | Except.ok (ne, elements, _, lg2) =>
        Except.ok ⟨pn, nodes, elements, nn, ne, lg1 ++ lg2⟩

/-- The whole scanner: `None` when the first line is not `$MeshFormat`
(line 180's early `return None`). -/
def loadTables (input : List String) : Except PyErr (Option Parsed) :=
  let (first_line, input1) := readline input
  if pyRstrip first_line == "$MeshFormat" then
    match loadTables1 input1 with
    | Except.error e => Except.error e
    | Except.ok p => Except.ok (some p)
  else Except.ok none

/-- Ascending insertion sort on `Int` (Python's `sorted` on an int tuple). -/
def insertSorted (x : Int) : List Int → List Int
  | [] => [x]
  | y :: ys => if x ≤ y then x :: y :: ys else y :: insertSorted x ys

/-- `sorted(face)`. -/
def insSort : List Int → List Int
  | [] => []
  | x :: xs => insertSorted x (insSort xs)

/-- Python truthiness of `faces_dict.get(key)`: `None` and the empty tuple
are falsy. -/
def pyTruthy (o : Option (List Int)) : Bool :=
  match o with
  | none => false
  | some l => !l.isEmpty

/-- The mutable state of the assembly pass (lines 296–299). -/
structure AsmSt where
  edges : List (List Int)
  fdict : List (List Int × List Int)
  snames : List String
deriving DecidableEq, Repr

/-- The assembly step for one element record (lines 309–319). -/
def procElem (pn2 : Dict String) (e : ElemRec) (st : AsmSt) : Except PyErr AsmSt :=
  if e.typ == 1 then
    Except.ok { st with edges := st.edges ++ [e.nodes.map (fun x => x - 1)] }
  else if e.typ == 2 || e.typ == 3 then
    let face := e.nodes.map (fun x => x - 1)
    let key := insSort face
    if pyTruthy (adictGet st.fdict key) then Except.ok st
    else
      let fd := adictSet st.fdict key face
      if pn2.length > 0 then
        match e.physical_entity with
        | none => Except.error PyErr.keyError
        | some pe =>
          match adictGet pn2 pe with
          | none => Except.error PyErr.keyError
          | some nm => Except.ok ⟨st.edges, fd, st.snames ++ [nm]⟩
      else Except.ok ⟨st.edges, fd, st.snames ++ ["no_name"]⟩
  else Except.ok st

/-- `element = elements[i+1]` then the assembly step (lines 307–319). -/
def stepElem (elements : Dict ElemRec) (pn2 : Dict String) (i : Nat) (st : AsmSt) :
    Except PyErr AsmSt :=
  match adictGet elements ((i : Int) + 1) with
  | none => Except.error PyErr.keyError
  | some e => procElem pn2 e st

/-- The assembly loop over `range(number_of_elements)`. -/
def asmLoop (elements : Dict ElemRec) (pn2 : Dict String) :
    List Nat → AsmSt → Except PyErr AsmSt
  | [], st => Except.ok st
  | i :: is, st =>
    match stepElem elements pn2 i st with
    | Except.error e => Except.error e
    | Except.ok st' => asmLoop elements pn2 is st'

/-- `for i in range(number_of_nodes): verts.append(nodes[i+1])`
(lines 304–305; KeyError on a gap in the ids). -/
def vertsLoop (nodes : Dict Coord) : List Nat → List Coord → Except PyErr (List Coord)
  | [], vs => Except.ok vs
  | i :: is, vs =>
    match adictGet nodes ((i : Int) + 1) with
    | none => Except.error PyErr.keyError
    | some c => vertsLoop nodes is (vs ++ [c])

/-- The parser's output record (what the host receives from line 340,
`bpy` assembly aside). -/
structure MeshData where
  verts : List Coord
  edges : List (List Int)
  faces : List (List Int)
  surface_names : List String
deriving DecidableEq, Repr

/-- Lines 296–330: the count asserts, the vertex pass, the element pass, and
`faces = [f for f in faces_dict.keys()]` — note the keys, not the stored
original-order values. -/
def buildMesh (pn : PhysNames) (nodes : Dict Coord) (elements : Dict ElemRec)
    (number_of_nodes number_of_elements : Int) : Except PyErr MeshData :=
  if (nodes.length : Int) == number_of_nodes then
    if (elements.length : Int) == number_of_elements then
      match vertsLoop nodes (List.range number_of_nodes.toNat) [] with
      | Except.error e => Except.error e
      | Except.ok verts =>
        match asmLoop elements pn.d2 (List.range number_of_elements.toNat) ⟨[], [], []⟩ with
        | Except.error e => Except.error e
        | Except.ok st =>
          Except.ok ⟨verts, st.edges, st.fdict.map (fun p => p.1), st.snames⟩
    else Except.error PyErr.assertionError
  else Except.error PyErr.assertionError

/-- The full `load` over the line stream: `Except.ok none` is the
`return None` path, `Except.ok (some (mesh, log))` the successful return of
`(mesh, surface_names)` together with the printed diagnostics, and
`Except.error` a raised exception unwinding to the caller. -/
def load (input : List String) : Except PyErr (Option (MeshData × List String)) :=
  match loadTables input with
  | Except.error e => Except.error e
  | Except.ok none => Except.ok none
  | Except.ok (some p) =>
    match buildMesh p.pn p.nodes p.elements p.number_of_nodes p.number_of_elements with
    | Except.error e => Except.error e
    | Except.ok m => Except.ok (some (m, p.log))

/-! ### Concrete input files

Each example is the list of raw lines of a `.msh` file, newline included,
exactly as `readline` would deliver them. -/

/-- A version 2.2 file with one physical surface name and one triangle
(the spec's round-trip scenario). -/
def exRT : List String :=
  ["$MeshFormat\n", "2.2 0 8\n", "$EndMeshFormat\n",
   "$PhysicalNames\n", "1\n", "2 1 \"top\"\n", "$EndPhysicalNames\n",
   "$Nodes\n", "3\n", "1 0 0 0\n", "2 1 0 0\n", "3 0 1 0\n", "$EndNodes\n",
   "$Elements\n", "1\n", "1 2 2 1 1 1 2 3\n", "$EndElements\n"]

/-- A version 2.2 file with two triangles on the same three nodes, the
reversed winding `[3,2,1]` first, then `[1,2,3]`. -/
def exC1 : List String :=
  ["$MeshFormat\n", "2.2 0 8\n", "$EndMeshFormat\n",
   "$Nodes\n", "3\n", "1 0 0 0\n", "2 1 0 0\n", "3 0 1 0\n", "$EndNodes\n",
   "$Elements\n", "2\n", "1 2 2 1 1 3 2 1\n", "2 2 2 1 1 1 2 3\n", "$EndElements\n"]

/-- A version 4.1 file with a dimension-2 physical name and one triangle
(block-grammar elements carry no entity tags). -/
def exC3 : List String :=
  ["$MeshFormat\n", "4.1 0 8\n", "$EndMeshFormat\n",
   "$PhysicalNames\n", "1\n", "2 1 \"top\"\n", "$EndPhysicalNames\n",
   "$Nodes\n", "1 3\n", "0 0 0 3\n", "1 0 0 0\n", "2 1 0 0\n", "3 0 1 0\n", "$EndNodes\n",
   "$Elements\n", "1 1\n", "0 0 2 1\n", "1 1 2 3\n", "$EndElements\n"]

/-- A version 2.2 file declaring 2 nodes whose block body holds a blank line
followed by the 2 well-formed node records. -/
def exC4 : List String :=
  ["$MeshFormat\n", "2.2 0 8\n", "$EndMeshFormat\n",
   "$Nodes\n", "2\n", "\n", "1 0 0 0\n", "2 1 0 0\n", "$EndNodes\n",
   "$Elements\n", "0\n", "$EndElements\n"]

/-- A version 2.2 file with an unknown `$Periodic ... $EndPeriodic` section
between the header and the node section. -/
def exC5 : List String :=
  ["$MeshFormat\n", "2.2 0 8\n", "$EndMeshFormat\n",
   "$Periodic\n", "1\n", "$EndPeriodic\n",
   "$Nodes\n", "1\n", "1 0 0 0\n", "$EndNodes\n",
   "$Elements\n", "0\n", "$EndElements\n"]

/-- A version 2.2 file declaring 2 nodes but supplying the same node id
twice, so only one table entry results. -/
def exC7 : List String :=
  ["$MeshFormat\n", "2.2 0 8\n", "$EndMeshFormat\n",
   "$Nodes\n", "2\n", "1 0 0 0\n", "1 1 0 0\n", "$EndNodes\n",
   "$Elements\n", "0\n", "$EndElements\n"]

/-- The scanner output for `exC7`: one node against a declared count of 2. -/
def pC7 : Parsed :=
  ⟨⟨[], [], []⟩, [(1, (⟨1, 0⟩, ⟨0, 0⟩, ⟨0, 0⟩))], [], 2, 0, []⟩

/-- An element table with two line elements carrying reversed node pairs. -/
def elC10 : Dict ElemRec :=
  [(1, ⟨1, some 1, some 1, [1, 2]⟩), (2, ⟨1, some 1, some 1, [2, 1]⟩)]

/-- A node table for the two-line-element example. -/
def ndC10 : Dict Coord :=
  [(1, (⟨0, 0⟩, ⟨0, 0⟩, ⟨0, 0⟩)), (2, (⟨1, 0⟩, ⟨0, 0⟩, ⟨0, 0⟩))]

/-- A version 2.2 file with a single element of the unknown type code 99. -/
def exC8 : List String :=
  ["$MeshFormat\n", "2.2 0 8\n", "$EndMeshFormat\n",
   "$Nodes\n", "1\n", "1 0 0 0\n", "$EndNodes\n",
   "$Elements\n", "1\n", "1 99 2 1 1\n", "$EndElements\n"]

/-- A record is good when a triangle/quad type implies a nonempty node list. -/
def goodRec (r : ElemRec) : Prop :=
  (r.typ = 2 ∨ r.typ = 3) → r.nodes ≠ []

/-- All records of an element table are good. -/
def ElGood (el : Dict ElemRec) : Prop :=
  ∀ p ∈ el, goodRec p.2

/-- The invariant of the assembly state: the face dict and the name list
grow in lockstep, and every stored face is a nonempty tuple. -/
def AsmInv (st : AsmSt) : Prop :=
  st.fdict.length = st.snames.length ∧ ∀ p ∈ st.fdict, p.2 ≠ ([] : List Int)

/-- The edge contributed by element id `i + 1`, if it is a line element. -/
def edgeOfElem (elements : Dict ElemRec) (i : Nat) : Option (List Int) :=
  match adictGet elements ((i : Int) + 1) with
  | none => none
  | some e => if e.typ == 1 then some (e.nodes.map (fun x => x - 1)) else none

/-! ### Helper lemmas -/

theorem readIntsFrom_length (s : List String) :
    ∀ (k j : Nat) (vs : List Int) (j' : Nat),
      readIntsFrom s j k = Except.ok (vs, j') → vs.length = k := by
  intro k
  induction k with
  | zero =>
    intro j vs j' h
    simp only [readIntsFrom, Except.ok.injEq, Prod.mk.injEq] at h
    rw [← h.1]
    rfl
  | succ k ih =>
    intro j vs j' h
    simp only [readIntsFrom] at h
    split at h
    · exact Except.noConfusion h
    · split at h
      · exact Except.noConfusion h
      · simp only [Except.ok.injEq, Prod.mk.injEq] at h
        rw [← h.1]
        simp [ih _ _ _ ‹_›]

/-- A parsed element record never pairs a known type with the wrong node
count: an unknown type gives an empty node list and the diagnostic, a known
type gives exactly the table's node count and no diagnostic. -/
theorem procLegacyElemTokens_spec (s : List String) (num : Int) (r : ElemRec)
    (lg : List String) (h : procLegacyElemTokens s = Except.ok ((num, r), lg)) :
    (elementTypes r.typ = none ∧ r.nodes = [] ∧ lg = [unimplMsg r.typ]) ∨
    (∃ k, elementTypes r.typ = some k ∧ r.nodes.length = k ∧ lg = []) := by
  unfold procLegacyElemTokens at h
  repeat' split at h
  any_goals exact Except.noConfusion h
  · simp only [Except.ok.injEq, Prod.mk.injEq] at h
    obtain ⟨⟨hnum, hr⟩, hlg⟩ := h
    subst hr
    subst hlg
    exact Or.inl ⟨‹_›, rfl, rfl⟩
  · simp only [Except.ok.injEq, Prod.mk.injEq] at h
    obtain ⟨⟨hnum, hr⟩, hlg⟩ := h
    subst hr
    subst hlg
    exact Or.inr ⟨_, ‹_›, readIntsFrom_length _ _ _ _ _ ‹_›, rfl⟩

/-- Same shape for the version ≥ 4 element-line parser. -/
theorem procV4ElemTokens_spec (t : Int) (s : List String) (num : Int) (r : ElemRec)
    (lg : List String) (h : procV4ElemTokens t s = Except.ok ((num, r), lg)) :
    (elementTypes r.typ = none ∧ r.nodes = [] ∧ lg = [unimplMsg r.typ]) ∨
    (∃ k, elementTypes r.typ = some k ∧ r.nodes.length = k ∧ lg = []) := by
  unfold procV4ElemTokens at h
  repeat' split at h
  any_goals exact Except.noConfusion h
  · simp only [Except.ok.injEq, Prod.mk.injEq] at h
    obtain ⟨⟨hnum, hr⟩, hlg⟩ := h
    subst hr
    subst hlg
    exact Or.inl ⟨‹_›, rfl, rfl⟩
  · simp only [Except.ok.injEq, Prod.mk.injEq] at h
    obtain ⟨⟨hnum, hr⟩, hlg⟩ := h
    subst hr
    subst hlg
    exact Or.inr ⟨_, ‹_›, readIntsFrom_length _ _ _ _ _ ‹_›, rfl⟩

theorem goodRec_of_spec {r : ElemRec}
    (h : (elementTypes r.typ = none ∧ r.nodes = [] ∧ True) ∨
      (∃ k, elementTypes r.typ = some k ∧ r.nodes.length = k ∧ True)) : goodRec r := by
  intro ht
  rcases h with ⟨hn, _, _⟩ | ⟨k, hk, hlen, _⟩
  · rcases ht with h2 | h3
    · rw [h2] at hn; exact absurd hn (by decide)
    · rw [h3] at hn; exact absurd hn (by decide)
  · have hk0 : k ≠ 0 := by
      rcases ht with h2 | h3
      · rw [h2] at hk
        rw [show elementTypes 2 = some 3 by decide] at hk
        injection hk with hk3
        omega
      · rw [h3] at hk
        rw [show elementTypes 3 = some 4 by decide] at hk
        injection hk with hk4
        omega
    intro hnil
    rw [hnil] at hlen
    simp only [List.length_nil] at hlen
    exact hk0 hlen.symm

theorem mem_adictSet {κ α : Type} [BEq κ] (d : List (κ × α)) (k : κ) (v : α)
    (p : κ × α) (hp : p ∈ adictSet d k v) : p = (k, v) ∨ p ∈ d := by
  unfold adictSet at hp
  split at hp
  · obtain ⟨q, hq, hfq⟩ := List.mem_map.mp hp
    by_cases hqk : (q.1 == k) = true
    · rw [if_pos hqk] at hfq
      exact Or.inl hfq.symm
    · rw [if_neg hqk] at hfq
      exact Or.inr (hfq ▸ hq)
  · rcases List.mem_append.mp hp with h | h
    · exact Or.inr h
    · simp only [List.mem_singleton] at h
      exact Or.inl h

theorem ElGood_nil : ElGood [] :=
  fun p hp => absurd hp (List.not_mem_nil p)

theorem parseElemsLegacyLoop_good :
    ∀ (n : Nat) (input : List String) (el : Dict ElemRec) (lg : List String)
      (el' : Dict ElemRec) (input' lg' : List String),
      ElGood el → parseElemsLegacyLoop n input el lg = Except.ok (el', input', lg') →
      ElGood el' := by
  intro n
  induction n with
  | zero =>
    intro input el lg el' input' lg' hg h
    simp only [parseElemsLegacyLoop, Except.ok.injEq, Prod.mk.injEq] at h
    rw [← h.1]
    exact hg
  | succ n ih =>
    intro input el lg el' input' lg' hg h
    simp only [parseElemsLegacyLoop] at h
    split at h
    · exact ih _ _ _ _ _ _ hg h
    · split at h
      · exact Except.noConfusion h
      · rename_i num r lg2 hproc
        refine ih _ _ _ _ _ _ ?_ h
        intro p hp
        rcases mem_adictSet _ _ _ p hp with hpv | hmem
        · rw [hpv]
          refine goodRec_of_spec ?_
          rcases procLegacyElemTokens_spec _ _ _ _ hproc with ⟨a, b, _⟩ | ⟨k, a, b, _⟩
          · exact Or.inl ⟨a, b, trivial⟩
          · exact Or.inr ⟨k, a, b, trivial⟩
        · exact hg p hmem

theorem parseElemsV4Inner_good (elem_type : Int) :
    ∀ (n : Nat) (input : List String) (el : Dict ElemRec) (lg : List String)
      (el' : Dict ElemRec) (input' lg' : List String),
      ElGood el → parseElemsV4Inner elem_type n input el lg = Except.ok (el', input', lg') →
      ElGood el' := by
  intro n
  induction n with
  | zero =>
    intro input el lg el' input' lg' hg h
    simp only [parseElemsV4Inner, Except.ok.injEq, Prod.mk.injEq] at h
    rw [← h.1]
    exact hg
  | succ n ih =>
    intro input el lg el' input' lg' hg h
    simp only [parseElemsV4Inner] at h
    split at h
    · exact ih _ _ _ _ _ _ hg h
    · split at h
      · exact Except.noConfusion h
      · rename_i num r lg2 hproc
        refine ih _ _ _ _ _ _ ?_ h
        intro p hp
        rcases mem_adictSet _ _ _ p hp with hpv | hmem
        · rw [hpv]
          refine goodRec_of_spec ?_
          rcases procV4ElemTokens_spec _ _ _ _ _ hproc with ⟨a, b, _⟩ | ⟨k, a, b, _⟩
          · exact Or.inl ⟨a, b, trivial⟩
          · exact Or.inr ⟨k, a, b, trivial⟩
        · exact hg p hmem

theorem parseElemsV4Blocks_good :
    ∀ (b : Nat) (input : List String) (el : Dict ElemRec) (lg : List String)
      (el' : Dict ElemRec) (input' lg' : List String),
      ElGood el → parseElemsV4Blocks b input el lg = Except.ok (el', input', lg') →
      ElGood el' := by
  intro b
  induction b with
  | zero =>
    intro input el lg el' input' lg' hg h
    simp only [parseElemsV4Blocks, Except.ok.injEq, Prod.mk.injEq] at h
    rw [← h.1]
    exact hg
  | succ b ih =>
    intro input el lg el' input' lg' hg h
    simp only [parseElemsV4Blocks] at h
    repeat' split at h
    any_goals exact Except.noConfusion h
    rename_i elem_type het cnt hcnt el1 input1 lg1 hinner
    exact ih _ _ _ _ _ _ (parseElemsV4Inner_good _ _ _ _ _ _ _ _ hg hinner) h

theorem parseElementsPhase_good (version : PyFloat) (input : List String) (ne : Int)
    (el : Dict ElemRec) (input' lg : List String)
    (h : parseElementsPhase version input = Except.ok (ne, el, input', lg)) :
    ElGood el := by
  unfold parseElementsPhase at h
  simp only [] at h
  repeat' split at h
  any_goals exact Except.noConfusion h
  · rename_i hloop
    simp only [Except.ok.injEq, Prod.mk.injEq] at h
    rw [← h.2.1]
    exact parseElemsLegacyLoop_good _ _ _ _ _ _ _ ElGood_nil hloop
  · rename_i hloop
    simp only [Except.ok.injEq, Prod.mk.injEq] at h
    rw [← h.2.1]
    exact parseElemsV4Blocks_good _ _ _ _ _ _ _ ElGood_nil hloop

theorem loadTables_good (input : List String) (p : Parsed)
    (h : loadTables input = Except.ok (some p)) : ElGood p.elements := by
  unfold loadTables at h
  repeat' split at h
  any_goals exact Except.noConfusion h
  any_goals (injection h with h2; exact Option.noConfusion h2)
  rename_i p' hp'
  simp only [Except.ok.injEq, Option.some.injEq] at h
  rw [← h]
  unfold loadTables1 at hp'
  repeat' split at hp'
  any_goals exact Except.noConfusion hp'
  rename_i helems
  simp only [Except.ok.injEq] at hp'
  rw [← hp']
  exact parseElementsPhase_good _ _ _ _ _ _ helems

theorem adictGet_some_val {κ α : Type} [BEq κ] (d : List (κ × α)) (k : κ) (v : α)
    (h : adictGet d k = some v) : ∃ p ∈ d, p.2 = v := by
  unfold adictGet at h
  cases hf : d.find? (fun p => p.1 == k) with
  | none => rw [hf] at h; exact Option.noConfusion h
  | some q =>
    rw [hf] at h
    simp only [Option.map_some', Option.some.injEq] at h
    exact ⟨q, List.mem_of_find?_eq_some hf, h⟩

theorem adictGet_none_find {κ α : Type} [BEq κ] (d : List (κ × α)) (k : κ)
    (h : adictGet d k = none) : d.find? (fun p => p.1 == k) = none := by
  unfold adictGet at h
  cases hf : d.find? (fun p => p.1 == k) with
  | none => rfl
  | some q => rw [hf] at h; exact Option.noConfusion h

theorem adictSet_of_get_none {κ α : Type} [BEq κ] (d : List (κ × α)) (k : κ) (v : α)
    (h : adictGet d k = none) : adictSet d k v = d ++ [(k, v)] := by
  unfold adictSet
  rw [adictGet_none_find d k h]
  rfl

theorem procElem_inv (pn2 : Dict String) (e : ElemRec) (st st' : AsmSt)
    (hg : goodRec e) (hi : AsmInv st) (h : procElem pn2 e st = Except.ok st') :
    AsmInv st' := by
  unfold procElem at h
  simp only [] at h
  split at h
  · simp only [Except.ok.injEq] at h
    rw [← h]
    exact hi
  · split at h
    · rename_i h1 h23
      have htyp : e.typ = 2 ∨ e.typ = 3 := by
        simp only [Bool.or_eq_true, beq_iff_eq] at h23
        exact h23
      have hface : e.nodes.map (fun x => x - 1) ≠ [] := by
        intro hc
        exact hg htyp (List.map_eq_nil_iff.mp hc)
      split at h
      · simp only [Except.ok.injEq] at h
        rw [← h]
        exact hi
      · rename_i hfalse
        have hget : adictGet st.fdict (insSort (e.nodes.map (fun x => x - 1))) = none := by
          cases hc : adictGet st.fdict (insSort (e.nodes.map (fun x => x - 1))) with
          | none => rfl
          | some v =>
            exfalso
            rcases adictGet_some_val _ _ _ hc with ⟨q, hq, hqv⟩
            apply hfalse
            rw [hc]
            simp only [pyTruthy, Bool.not_eq_true']
            have hvne : v ≠ [] := by rw [← hqv]; exact hi.2 q hq
            cases v with
            | nil => exact absurd rfl hvne
            | cons a as => rfl
        have hset := adictSet_of_get_none st.fdict
          (insSort (e.nodes.map (fun x => x - 1))) (e.nodes.map (fun x => x - 1)) hget
        split at h
        · split at h
          · exact Except.noConfusion h
          · split at h
            · exact Except.noConfusion h
            · simp only [Except.ok.injEq] at h
              rw [← h]
              constructor
              · simp only [hset, List.length_append, List.length_singleton]
                simp [hi.1]
              · intro p hp
                simp only [hset] at hp
                rcases List.mem_append.mp hp with hmem | hone
                · exact hi.2 p hmem
                · simp only [List.mem_singleton] at hone
                  rw [hone]
                  exact hface
        · simp only [Except.ok.injEq] at h
          rw [← h]
          constructor
          · simp only [hset, List.length_append, List.length_singleton]
            simp [hi.1]
          · intro p hp
            simp only [hset] at hp
            rcases List.mem_append.mp hp with hmem | hone
            · exact hi.2 p hmem
            · simp only [List.mem_singleton] at hone
              rw [hone]
              exact hface
    · simp only [Except.ok.injEq] at h
      rw [← h]
      exact hi

theorem asmLoop_inv (elements : Dict ElemRec) (pn2 : Dict String)
    (hEl : ElGood elements) :
    ∀ (ids : List Nat) (st st' : AsmSt), AsmInv st →
      asmLoop elements pn2 ids st = Except.ok st' → AsmInv st' := by
  intro ids
  induction ids with
  | nil =>
    intro st st' hi h
    simp only [asmLoop, Except.ok.injEq] at h
    rw [← h]
    exact hi
  | cons i is ih =>
    intro st st' hi h
    simp only [asmLoop] at h
    split at h
    · exact Except.noConfusion h
    · rename_i st1 hstep
      refine ih _ _ ?_ h
      unfold stepElem at hstep
      split at hstep
      · exact Except.noConfusion hstep
      · rename_i e he
        refine procElem_inv _ _ _ _ ?_ hi hstep
        rcases adictGet_some_val _ _ _ he with ⟨q, hq, hqv⟩
        exact hqv ▸ hEl q hq

theorem buildMesh_len (pn : PhysNames) (nodes : Dict Coord) (elements : Dict ElemRec)
    (nn ne : Int) (m : MeshData) (hEl : ElGood elements)
    (h : buildMesh pn nodes elements nn ne = Except.ok m) :
    m.faces.length = m.surface_names.length := by
  unfold buildMesh at h
  repeat' split at h
  any_goals exact Except.noConfusion h
  rename_i verts hverts st hasm
  simp only [Except.ok.injEq] at h
  rw [← h]
  have hinv := asmLoop_inv elements pn.d2 hEl _ _ _
    ⟨rfl, fun p hp => absurd hp (List.not_mem_nil p)⟩ hasm
  simpa using hinv.1

theorem procElem_edges (pn2 : Dict String) (e : ElemRec) (st st' : AsmSt)
    (h : procElem pn2 e st = Except.ok st') :
    st'.edges = st.edges ++ (if e.typ == 1 then [e.nodes.map (fun x => x - 1)] else []) := by
  unfold procElem at h
  simp only [] at h
  repeat' split at h
  any_goals exact Except.noConfusion h
  all_goals simp only [Except.ok.injEq] at h
  all_goals rw [← h]
  all_goals simp_all

theorem asmLoop_edges (elements : Dict ElemRec) (pn2 : Dict String) :
    ∀ (ids : List Nat) (st st' : AsmSt),
      asmLoop elements pn2 ids st = Except.ok st' →
      st'.edges = st.edges ++ ids.filterMap (edgeOfElem elements) := by
  intro ids
  induction ids with
  | nil =>
    intro st st' h
    simp only [asmLoop, Except.ok.injEq] at h
    rw [← h]
    simp
  | cons i is ih =>
    intro st st' h
    simp only [asmLoop] at h
    split at h
    · exact Except.noConfusion h
    · rename_i st1 hstep
      have hrec := ih _ _ h
      unfold stepElem at hstep
      split at hstep
      · exact Except.noConfusion hstep
      · rename_i e he
        have hed := procElem_edges _ _ _ _ hstep
        rw [hrec, hed]
        simp only [List.filterMap_cons, edgeOfElem, he]
        by_cases h1 : (e.typ == 1) = true
        · simp [h1]
        · simp [h1]

theorem skipUnknownLoop_consume (endTok : String) :
    ∀ (pre : List String) (tmp : String) (stop : String) (rest : List String),
      strContains tmp endTok = false → tmp ≠ "" →
      (∀ l ∈ pre, strContains (stripCRLF l) endTok = false ∧ stripCRLF l ≠ "") →
      (strContains (stripCRLF stop) endTok = true ∨ stripCRLF stop = "") →
      skipUnknownLoop endTok (pre ++ stop :: rest) tmp = rest := by
  intro pre
  induction pre with
  | nil =>
    intro tmp stop rest h1 h2 hpre hstop
    simp only [List.nil_append, skipUnknownLoop]
    rw [if_neg (by simp [h1, h2])]
    cases rest with
    | nil => simp [skipUnknownLoop]
    | cons r rs =>
      simp only [skipUnknownLoop]
      rw [if_pos (by rcases hstop with h | h <;> simp [h])]
  | cons l pre ih =>
    intro tmp stop rest h1 h2 hpre hstop
    simp only [List.cons_append, skipUnknownLoop]
    rw [if_neg (by simp [h1, h2])]
    exact ih (stripCRLF l) stop rest (hpre l (List.mem_cons_self l pre)).1
      (hpre l (List.mem_cons_self l pre)).2
      (fun x hx => hpre x (List.mem_cons_of_mem l hx)) hstop

/-! ### Claim theorems -/

/-- C1.  The claim says the stored face keeps the first-seen element's
original (unsorted) node order, so for `[3,2,1]` first it should be
`(2,1,0)`.  The code stores the original-order tuple only as the dict value
and emits `faces_dict.keys()` (line 330), so the output face is the sorted
key `(0,1,2)` instead: evaluating the embedded `load` on a file whose first
triangle is `[3,2,1]` yields `faces = [[0,1,2]]`, not `[[2,1,0]]`. -/
theorem faces_store_sorted_key :
    load exC1 = Except.ok (some
      (⟨[(⟨0, 0⟩, ⟨0, 0⟩, ⟨0, 0⟩), (⟨1, 0⟩, ⟨0, 0⟩, ⟨0, 0⟩), (⟨0, 0⟩, ⟨1, 0⟩, ⟨0, 0⟩)],
        [], [[0, 1, 2]], ["no_name"]⟩, [])) := by
  decide

/-- C2.  Whenever `load` returns a mesh, the output satisfies
`len(faces) = len(surfaceNames)`: each new-face insertion appends exactly one
surface name, and nothing else touches either sequence. -/
theorem load_faces_surfaceNames_length (input : List String) (m : MeshData)
    (lg : List String) (h : load input = Except.ok (some (m, lg))) :
    m.faces.length = m.surface_names.length := by
  unfold load at h
  split at h
  · exact Except.noConfusion h
  · exfalso
    injection h with h2
    exact Option.noConfusion h2
  · rename_i p hp
    split at h
    · exact Except.noConfusion h
    · rename_i m' hm
      simp only [Except.ok.injEq, Option.some.injEq, Prod.mk.injEq] at h
      rw [← h.1]
      exact buildMesh_len _ _ _ _ _ _ (loadTables_good _ _ hp) hm

/-- Witness for C2 on the spec's round-trip example file. -/
theorem load_faces_surfaceNames_length_witness :
    (MeshData.mk
      [(⟨0, 0⟩, ⟨0, 0⟩, ⟨0, 0⟩), (⟨1, 0⟩, ⟨0, 0⟩, ⟨0, 0⟩), (⟨0, 0⟩, ⟨1, 0⟩, ⟨0, 0⟩)]
      [] [[0, 1, 2]] ["top"]).faces.length =
    (MeshData.mk
      [(⟨0, 0⟩, ⟨0, 0⟩, ⟨0, 0⟩), (⟨1, 0⟩, ⟨0, 0⟩, ⟨0, 0⟩), (⟨0, 0⟩, ⟨1, 0⟩, ⟨0, 0⟩)]
      [] [[0, 1, 2]] ["top"]).surface_names.length :=
  load_faces_surfaceNames_length exRT _ [] (by decide)

/-- C3 counterexample.  In the block grammar (version ≥ 4.0) the element
records carry no `physical_entity`, so with a dimension-2 physical name
declared the lookup raises `KeyError` and `load` aborts instead of appending
any surface name — the claim's lookup behaviour cannot hold for the block
grammar. -/
theorem v4_physical_names_keyerror :
    load exC3 = Except.error PyErr.keyError := by
  decide

/-- C3 amended.  For a triangle/quad element whose face key is fresh: with no
dimension-2 physical names the appended entry is `"no_name"`; with names
declared and the element carrying a physical-entity tag present in the table
(as every legacy-grammar record does) the entry is the table lookup; with
names declared but no tag on the record (as in every block-grammar record)
the load aborts with `KeyError`. -/
theorem surface_name_selection (pn2 : Dict String) (e : ElemRec) (st : AsmSt)
    (ht : e.typ = 2 ∨ e.typ = 3)
    (hfresh : pyTruthy (adictGet st.fdict (insSort (e.nodes.map (fun x => x - 1)))) = false) :
    (pn2 = [] →
      procElem pn2 e st = Except.ok ⟨st.edges,
        adictSet st.fdict (insSort (e.nodes.map (fun x => x - 1)))
          (e.nodes.map (fun x => x - 1)),
        st.snames ++ ["no_name"]⟩) ∧
    (∀ pe nm, e.physical_entity = some pe → adictGet pn2 pe = some nm → pn2 ≠ [] →
      procElem pn2 e st = Except.ok ⟨st.edges,
        adictSet st.fdict (insSort (e.nodes.map (fun x => x - 1)))
          (e.nodes.map (fun x => x - 1)),
        st.snames ++ [nm]⟩) ∧
    (e.physical_entity = none → pn2 ≠ [] →
      procElem pn2 e st = Except.error PyErr.keyError) := by
  have h1 : (e.typ == 1) = false := by rcases ht with h | h <;> simp [h]
  have h23 : (e.typ == 2 || e.typ == 3) = true := by rcases ht with h | h <;> simp [h]
  refine ⟨?_, ?_, ?_⟩
  · intro hnil
    simp [procElem, h1, h23, hfresh, hnil]
  · intro pe nm hpe hget hne
    have hlen : pn2.length > 0 := List.length_pos.mpr hne
    simp [procElem, h1, h23, hfresh, hpe, hget, hlen]
  · intro hpe hne
    have hlen : pn2.length > 0 := List.length_pos.mpr hne
    simp [procElem, h1, h23, hfresh, hpe, hlen]

/-- Witness for the amended C3: the lookup case at a concrete element. -/
theorem surface_name_selection_witness :
    procElem [(1, "top")] ⟨2, some 1, some 1, [1, 2, 3]⟩ ⟨[], [], []⟩ =
      Except.ok ⟨[], [([0, 1, 2], [0, 1, 2])], ["top"]⟩ :=
  (surface_name_selection [(1, "top")] ⟨2, some 1, some 1, [1, 2, 3]⟩ ⟨[], [], []⟩
    (Or.inl rfl) (by decide)).2.1 1 "top" rfl (by decide) (by decide)

/-- C4.  A blank line inside a legacy node block consumes one of the `N`
loop iterations, so it does count against the declared total: with `N = 2`
and a body of one blank line followed by the two record lines, only one node
record is parsed (the second record line is left for the `$EndNodes`
discard), and the full load aborts instead of producing the two nodes. -/
theorem blank_line_counts_against_node_total :
    parseNodesLegacy 2 ["\n", "1 0 0 0\n", "2 1 0 0\n", "$EndNodes\n"] [] =
      Except.ok ([(1, (⟨0, 0⟩, ⟨0, 0⟩, ⟨0, 0⟩))], ["2 1 0 0\n", "$EndNodes\n"]) ∧
    load exC4 = Except.error PyErr.valueError :=
  ⟨by decide, by decide⟩

/-- C5 counterexample.  The skip loop stops at the first blank line (its
`len(tmp) > 0` test), not only at `$End<Name>` or end of stream: with the
body `a`, blank, `b`, `$EndFoo`, it stops after the blank line and leaves
`b` and the `$EndFoo` marker unconsumed. -/
theorem skip_section_stops_at_blank :
    skipUnknownCmd ["a\n", "\n", "b\n", "$EndFoo\n"] "$Foo" =
      (["b\n", "$EndFoo\n"], ["Skiping unknown command :\x27$Foo\x27 "]) := by
  decide

/-- C5 amended.  `skipUnknownCmd` emits its diagnostic and consumes lines up
to and including the first line that either contains `$End<Name>` as a
substring or is empty after stripping CR/LF (end of stream reads as the
empty line); every line after that stays in the stream, so for a well-formed
unknown section the following known sections parse normally, as the
`$Periodic` example file shows. -/
theorem skip_section_amended (c nm : String) (pre : List String) (stop : String)
    (rest : List String) (hc : stripChars c ['$'] = nm)
    (h0 : strContains nm ("$End" ++ nm) = false) (hne : nm ≠ "")
    (hpre : ∀ l ∈ pre, strContains (stripCRLF l) ("$End" ++ nm) = false ∧ stripCRLF l ≠ "")
    (hstop : strContains (stripCRLF stop) ("$End" ++ nm) = true ∨ stripCRLF stop = "") :
    skipUnknownCmd (pre ++ stop :: rest) c =
      (rest, ["Skiping unknown command :\x27" ++ c ++ "\x27 "]) ∧
    load exC5 = Except.ok (some (⟨[(⟨0, 0⟩, ⟨0, 0⟩, ⟨0, 0⟩)], [], [], []⟩,
      ["Skiping unknown command :\x27$Periodic\x27 "])) := by
  constructor
  · unfold skipUnknownCmd
    simp only [hc]
    rw [skipUnknownLoop_consume ("$End" ++ nm) pre nm stop rest h0 hne hpre hstop]
  · decide

/-- Witness for the amended C5 at a concrete section body. -/
theorem skip_section_amended_witness :
    skipUnknownCmd ["x\n", "$EndFoo\n", "$Nodes\n"] "$Foo" =
      (["$Nodes\n"], ["Skiping unknown command :\x27$Foo\x27 "]) :=
  (skip_section_amended "$Foo" "Foo" ["x\n"] "$EndFoo\n" ["$Nodes\n"] (by decide)
    (by decide) (by decide) (by decide) (Or.inl (by decide))).1

/-- C6.  A triangle/quad element whose face key is already stored is dropped
silently: the assembly step returns the state unchanged — no face, no
surface name, so the first-seen entry (and its name) wins. -/
theorem dedup_first_seen_wins (pn2 : Dict String) (e : ElemRec) (st : AsmSt)
    (ht : e.typ = 2 ∨ e.typ = 3)
    (hdup : pyTruthy (adictGet st.fdict (insSort (e.nodes.map (fun x => x - 1)))) = true) :
    procElem pn2 e st = Except.ok st := by
  have h1 : (e.typ == 1) = false := by rcases ht with h | h <;> simp [h]
  have h23 : (e.typ == 2 || e.typ == 3) = true := by rcases ht with h | h <;> simp [h]
  simp [procElem, h1, h23, hdup]

/-- Witness for C6: the reversed duplicate of a stored triangle is dropped. -/
theorem dedup_first_seen_wins_witness :
    procElem [] ⟨2, some 1, some 1, [1, 2, 3]⟩ ⟨[], [([0, 1, 2], [2, 1, 0])], ["no_name"]⟩ =
      Except.ok ⟨[], [([0, 1, 2], [2, 1, 0])], ["no_name"]⟩ :=
  dedup_first_seen_wins [] ⟨2, some 1, some 1, [1, 2, 3]⟩
    ⟨[], [([0, 1, 2], [2, 1, 0])], ["no_name"]⟩ (Or.inl rfl) (by decide)

/-- C7.  When the scanner's parsed node or element count disagrees with the
declared total, the load aborts with the count assert's error and no mesh is
returned. -/
theorem count_mismatch_aborts (input : List String) (p : Parsed)
    (h1 : loadTables input = Except.ok (some p))
    (h2 : (p.nodes.length : Int) ≠ p.number_of_nodes ∨
      (p.elements.length : Int) ≠ p.number_of_elements) :
    load input = Except.error PyErr.assertionError := by
  have hb : buildMesh p.pn p.nodes p.elements p.number_of_nodes p.number_of_elements =
      Except.error PyErr.assertionError := by
    unfold buildMesh
    rcases h2 with h2 | h2
    · rw [if_neg (by simp only [beq_iff_eq]; exact h2)]
    · by_cases hcn : ((p.nodes.length : Int) == p.number_of_nodes) = true
      · rw [if_pos hcn, if_neg (by simp only [beq_iff_eq]; exact h2)]
      · rw [if_neg hcn]
  simp only [load, h1, hb]

/-- Witness for C7: two node lines with the same id against a declared
count of 2. -/
theorem count_mismatch_aborts_witness :
    load exC7 = Except.error PyErr.assertionError :=
  count_mismatch_aborts exC7 pC7 (by decide) (Or.inl (by decide))

/-- C8.  An element type absent from the type table is not fatal: the legacy
element-line parser still produces a record (empty node list) and prints the
diagnostic; the assembly step ignores any such element; and the type-99
example file loads successfully with empty geometry, the diagnostic in the
log, and the count assert satisfied. -/
theorem unknown_element_type_skippable :
    (∀ (s : List String) (num : Int) (r : ElemRec) (lg : List String),
      procLegacyElemTokens s = Except.ok ((num, r), lg) → elementTypes r.typ = none →
        r.nodes = [] ∧ lg = [unimplMsg r.typ]) ∧
    (∀ (pn2 : Dict String) (e : ElemRec) (st : AsmSt), elementTypes e.typ = none →
      procElem pn2 e st = Except.ok st) ∧
    load exC8 = Except.ok (some (⟨[(⟨0, 0⟩, ⟨0, 0⟩, ⟨0, 0⟩)], [], [], []⟩,
      ["Element 99 not implemented"])) := by
  refine ⟨?_, ?_, by decide⟩
  · intro s num r lg hok hnone
    rcases procLegacyElemTokens_spec _ _ _ _ hok with ⟨_, b, c⟩ | ⟨k, hk, _, _⟩
    · exact ⟨b, c⟩
    · rw [hnone] at hk
      exact Option.noConfusion hk
  · intro pn2 e st hnone
    have hne1 : e.typ ≠ 1 := fun hcc => by rw [hcc] at hnone; exact absurd hnone (by decide)
    have hne2 : e.typ ≠ 2 := fun hcc => by rw [hcc] at hnone; exact absurd hnone (by decide)
    have hne3 : e.typ ≠ 3 := fun hcc => by rw [hcc] at hnone; exact absurd hnone (by decide)
    simp [procElem, hne1, hne2, hne3]

/-- Witness for C8: the assembly step leaves the state unchanged on a
type-99 record. -/
theorem unknown_element_type_skippable_witness :
    procElem [] ⟨99, some 1, some 1, []⟩ ⟨[], [], []⟩ = Except.ok ⟨[], [], []⟩ :=
  unknown_element_type_skippable.2.1 [] ⟨99, some 1, some 1, []⟩ ⟨[], [], []⟩ (by decide)

/-- C10.  The output edge list is exactly the in-order list of index pairs
of the type-1 elements over ids `1..N`: one entry per line element, never
deduplicated (identical or reversed pairs each keep their own entry), so its
length is the number of type-1 elements. -/
theorem edges_not_deduplicated (pn : PhysNames) (nodes : Dict Coord)
    (elements : Dict ElemRec) (nn ne : Int) (m : MeshData)
    (h : buildMesh pn nodes elements nn ne = Except.ok m) :
    m.edges = (List.range ne.toNat).filterMap (edgeOfElem elements) := by
  unfold buildMesh at h
  repeat' split at h
  any_goals exact Except.noConfusion h
  rename_i verts hverts st hasm
  simp only [Except.ok.injEq] at h
  rw [← h]
  simpa using asmLoop_edges elements pn.d2 _ _ _ hasm

/-- Witness for C10: two line elements with reversed node pairs both appear. -/
theorem edges_not_deduplicated_witness :
    (MeshData.mk [(⟨0, 0⟩, ⟨0, 0⟩, ⟨0, 0⟩), (⟨1, 0⟩, ⟨0, 0⟩, ⟨0, 0⟩)]
      [[0, 1], [1, 0]] [] []).edges =
      (List.range (2 : Int).toNat).filterMap (edgeOfElem elC10) :=
  edges_not_deduplicated ⟨[], [], []⟩ ndC10 elC10 2 2 _ (by decide)

end Msh
